import Mathlib

/-!
Verification of the lich container library (`src/maybe.ts`, `src/either.ts`).

Modelling conventions for the shallow embedding:

* `Maybe` and `Either` are the two tagged unions of the library, with the
  constructors `Just`/`Nothing` and `Left`/`Right` carrying exactly the
  payloads the source objects carry (`value`, `reason`).
* A JavaScript promise is modelled by its settlement: `Promise.resolved a`
  (fulfilled with `a`) or `Promise.rejected e` (rejected with reason `e`).
  `await p` inside an `async` function propagates a rejection of `p` as the
  rejection of the whole function, which the embedding reflects directly.
* A caller-supplied JavaScript function can have side effects.  Where a claim
  is about whether the callback fires, the callback is modelled as a state
  transformer over an abstract heap `σ` (the spec's "side-effecting probe"):
  `f : J → σ → T × σ` returns its value together with the updated heap, and a
  combinator that never calls `f` leaves the heap untouched for every `f`.
  Those instrumented translations carry the suffix `E`; the pure translations
  keep the source names.
-/

namespace Lich

variable {J T U L R G σ ε : Type}

/-- Settlement of a JavaScript `Promise<α>`: fulfilled with a value of `α`,
or rejected with a reason of type `ε`. -/
inductive Promise (ε α : Type) : Type where
  | resolved (a : α)
  | rejected (e : ε)
deriving DecidableEq, Repr

/-- `Maybe<J>` from `src/maybe.ts`: `Just` holds `value : J`, `Nothing` holds
nothing. -/
inductive Maybe (J : Type) : Type where
  | Just (value : J)
  | Nothing
deriving DecidableEq, Repr

/-- `Either<L, R>` from `src/either.ts`: `Left` holds `reason : L`, `Right`
holds `value : R`. -/
inductive Either (L R : Type) : Type where
  | Left (reason : L)
  | Right (value : R)
deriving DecidableEq, Repr

/-- `map` from `src/maybe.ts`: `Just`: `(f) => Just(f(j))`; `Nothing`:
`(_f) => Nothing()`. -/
def Maybe.map (m : Maybe J) (f : J → T) : Maybe T :=
  match m with
  | .Just j => .Just (f j)
  | .Nothing => .Nothing

/-- `bind` from `src/maybe.ts`: `Just`: `(f) => f(j)`; `Nothing`:
`(_f) => Nothing()`. -/
def Maybe.bind (m : Maybe J) (f : J → Maybe T) : Maybe T :=
  match m with
  | .Just j => f j
  | .Nothing => .Nothing

/-- `fold` from `src/maybe.ts`: `Just`: `(_t, f) => f(j)`; `Nothing`:
`(j, _f) => j`.  The result type is the bare folded type `T`, not a
container. -/
def Maybe.fold (m : Maybe J) (onNothing : T) (f : J → T) : T :=
  match m with
  | .Just j => f j
  | .Nothing => onNothing

/-- `mapAsync` from `src/maybe.ts`: `Just`: `async (f) => Just(await f(j))`
(a rejection of `f(j)` propagates); `Nothing`: `async (_f) => Nothing()`. -/
def Maybe.mapAsync (m : Maybe J) (f : J → Promise ε T) : Promise ε (Maybe T) :=
  match m with
  | .Just j =>
    match f j with
    | .resolved t => .resolved (.Just t)
    | .rejected e => .rejected e
  | .Nothing => .resolved .Nothing

/-- `bindAsync` from `src/maybe.ts`: `Just`: `async (f) => await f(j)`;
`Nothing`: `async (_f) => Nothing()`. -/
def Maybe.bindAsync (m : Maybe J) (f : J → Promise ε (Maybe T)) :
    Promise ε (Maybe T) :=
  match m with
  | .Just j => f j
  | .Nothing => .resolved .Nothing

/-- `foldAsync` from `src/maybe.ts`: `Just`: `async (_t, f) => await f(j)`;
`Nothing`: `async (j, _f) => j`. -/
def Maybe.foldAsync (m : Maybe J) (onNothing : T) (f : J → Promise ε T) :
    Promise ε T :=
  match m with
  | .Just j => f j
  | .Nothing => .resolved onNothing

/-- `otherwise` from `src/maybe.ts`: `Just`: `(_t) => j`; `Nothing`:
`(j) => j` (returns the supplied default). -/
def Maybe.otherwise (m : Maybe J) (onNothing : J) : J :=
  match m with
  | .Just j => j
  | .Nothing => onNothing

/-- `map` from `src/either.ts`: `Right`: `(f) => Right(f(r))`; `Left`:
`(_) => Left(l)`. -/
def Either.map (e : Either L R) (f : R → T) : Either L T :=
  match e with
  | .Right r => .Right (f r)
  | .Left l => .Left l

/-- `bind` from `src/either.ts`: `Right`: `(f) => f(r)`; `Left`:
`(_) => Left(l)`. -/
def Either.bind (e : Either L R) (f : R → Either L T) : Either L T :=
  match e with
  | .Right r => f r
  | .Left l => .Left l

/-- `fold` from `src/either.ts`: `Right`: `(_, f) => f(r)`; `Left`:
`(f, _) => f(l)`.  The first function receives the failure reason; the result
type is the bare folded type `T`. -/
def Either.fold (e : Either L R) (onLeft : L → T) (onRight : R → T) : T :=
  match e with
  | .Right r => onRight r
  | .Left l => onLeft l

/-- `mapAsync` from `src/either.ts`: `Right`: `async (f) => Right(await f(r))`;
`Left`: `async (_) => Promise.resolve(Left(l))`. -/
def Either.mapAsync (e : Either L R) (f : R → Promise ε T) :
    Promise ε (Either L T) :=
  match e with
  | .Right r =>
    match f r with
    | .resolved t => .resolved (.Right t)
    | .rejected er => .rejected er
  | .Left l => .resolved (.Left l)

/-- `bindAsync` from `src/either.ts`: `Right`: `async (f) => await f(r)`;
`Left`: `async (_) => Promise.resolve(Left(l))`. -/
def Either.bindAsync (e : Either L R) (f : R → Promise ε (Either L T)) :
    Promise ε (Either L T) :=
  match e with
  | .Right r => f r
  | .Left l => .resolved (.Left l)

/-- `otherwise` from `src/either.ts`: `Right`: `(_) => r`; `Left`:
`(d) => d`. -/
def Either.otherwise (e : Either L R) (onLeft : R) : R :=
  match e with
  | .Right r => r
  | .Left _ => onLeft

/-- `isRight` from `src/either.ts`. -/
def Either.isRight : Either L R → Bool
  | .Right _ => true
  | .Left _ => false

/-- `isLeft` from `src/either.ts`. -/
def Either.isLeft : Either L R → Bool
  | .Right _ => false
  | .Left _ => true

/-- `toMaybe` from `src/either.ts`: `Right`: `() => Just(r)`; `Left`:
`() => Nothing()` (the reason is discarded). -/
def Either.toMaybe (e : Either L R) : Maybe R :=
  match e with
  | .Right r => .Just r
  | .Left _ => .Nothing

/-- `map` from `src/maybe.ts` with the caller-supplied function modelled as a
state transformer over a heap `σ`, so that whether the callback fires is
observable.  `Just`: applies `f` once to the value; `Nothing`: ignores `f`. -/
def Maybe.mapE (m : Maybe J) (f : J → σ → T × σ) (s : σ) : Maybe T × σ :=
  match m with
  | .Just j =>
    let p := f j s
    (.Just p.1, p.2)
  | .Nothing => (.Nothing, s)

/-- `bind` from `src/maybe.ts`, instrumented like `Maybe.mapE`. -/
def Maybe.bindE (m : Maybe J) (f : J → σ → Maybe T × σ) (s : σ) :
    Maybe T × σ :=
  match m with
  | .Just j => f j s
  | .Nothing => (.Nothing, s)

/-- `mapAsync` from `src/maybe.ts`, instrumented like `Maybe.mapE`. -/
def Maybe.mapAsyncE (m : Maybe J) (f : J → σ → Promise ε T × σ) (s : σ) :
    Promise ε (Maybe T) × σ :=
  match m with
  | .Just j =>
    let p := f j s
    (match p.1 with
     | .resolved t => .resolved (.Just t)
     | .rejected e => .rejected e, p.2)
  | .Nothing => (.resolved .Nothing, s)

/-- `bindAsync` from `src/maybe.ts`, instrumented like `Maybe.mapE`. -/
def Maybe.bindAsyncE (m : Maybe J) (f : J → σ → Promise ε (Maybe T) × σ)
    (s : σ) : Promise ε (Maybe T) × σ :=
  match m with
  | .Just j => f j s
  | .Nothing => (.resolved .Nothing, s)

/-- `foldAsync` from `src/maybe.ts`, instrumented like `Maybe.mapE`. -/
def Maybe.foldAsyncE (m : Maybe J) (onNothing : T)
    (f : J → σ → Promise ε T × σ) (s : σ) : Promise ε T × σ :=
  match m with
  | .Just j => f j s
  | .Nothing => (.resolved onNothing, s)

/-- `map` from `src/either.ts`, instrumented like `Maybe.mapE`. -/
def Either.mapE (e : Either L R) (f : R → σ → T × σ) (s : σ) :
    Either L T × σ :=
  match e with
  | .Right r =>
    let p := f r s
    (.Right p.1, p.2)
  | .Left l => (.Left l, s)

/-- `bind` from `src/either.ts`, instrumented like `Maybe.mapE`. -/
def Either.bindE (e : Either L R) (f : R → σ → Either L T × σ) (s : σ) :
    Either L T × σ :=
  match e with
  | .Right r => f r s
  | .Left l => (.Left l, s)

/-- `mapAsync` from `src/either.ts`, instrumented like `Maybe.mapE`. -/
def Either.mapAsyncE (e : Either L R) (f : R → σ → Promise ε T × σ) (s : σ) :
    Promise ε (Either L T) × σ :=
  match e with
  | .Right r =>
    let p := f r s
    (match p.1 with
     | .resolved t => .resolved (.Right t)
     | .rejected er => .rejected er, p.2)
  | .Left l => (.resolved (.Left l), s)

/-- `bindAsync` from `src/either.ts`, instrumented like `Maybe.mapE`. -/
def Either.bindAsyncE (e : Either L R) (f : R → σ → Promise ε (Either L T) × σ)
    (s : σ) : Promise ε (Either L T) × σ :=
  match e with
  | .Right r => f r s
  | .Left l => (.resolved (.Left l), s)

/-- `onJust` from `src/maybe.ts`: `Just`: `(f) => { f(j); return Just(j); }`;
`Nothing`: `(_f) => Nothing()`.  The void callback is modelled as a heap
transformer `J → σ → σ`. -/
def Maybe.onJust (m : Maybe J) (f : J → σ → σ) (s : σ) : Maybe J × σ :=
  match m with
  | .Just j => (.Just j, f j s)
  | .Nothing => (.Nothing, s)

/-- `onNothing` from `src/maybe.ts`: `Just`: `(_f) => Just(j)`; `Nothing`:
`(f) => { f(); return Nothing(); }`. -/
def Maybe.onNothing (m : Maybe J) (f : σ → σ) (s : σ) : Maybe J × σ :=
  match m with
  | .Just j => (.Just j, s)
  | .Nothing => (.Nothing, f s)

/-- `onRight` from `src/either.ts`: `Right`: `(f) => { f(r); return Right(r); }`;
`Left`: `() => Left(l)`. -/
def Either.onRight (e : Either L R) (f : R → σ → σ) (s : σ) :
    Either L R × σ :=
  match e with
  | .Right r => (.Right r, f r s)
  | .Left l => (.Left l, s)

/-- `onLeft` from `src/either.ts`: `Right`: `() => Right(r)`; `Left`:
`(f) => { f(l); return Left(l); }`. -/
def Either.onLeft (e : Either L R) (f : L → σ → σ) (s : σ) :
    Either L R × σ :=
  match e with
  | .Right r => (.Right r, s)
  | .Left l => (.Left l, f l s)

/-- `rights` from `src/either.ts`:
`es.reduce((acc, e) => e.fold(() => acc, (r) => [...acc, r]), [])`. -/
def rights (es : List (Either L R)) : List R :=
  es.foldl (fun acc e => e.fold (fun _ => acc) (fun r => acc ++ [r])) []

/-- `rightsOr` from `src/either.ts`: `Left(onAllLefts)` when `rights(es)` is
empty, otherwise `Right` of the collected values. -/
def rightsOr (es : List (Either L R)) (onAllLefts : L) : Either L (List R) :=
  let allRights := rights es
  if allRights.length = 0 then .Left onAllLefts else .Right allRights

/-- The loop of `sequenceEither` from `src/either.ts`: walks the list keeping
the collected `rs`; on the first `Left` it returns `Left(e.reason)` at once,
otherwise it pushes `e.value` and continues. -/
def sequenceLoop : List (Either L R) → List R → Either L (List R)
  | [], rs => .Right rs
  | .Left l :: _, _ => .Left l
  | .Right r :: rest, rs => sequenceLoop rest (rs ++ [r])

/-- `sequenceEither` from `src/either.ts`, starting the loop from `[]`. -/
def sequenceEither (es : List (Either L R)) : Either L (List R) :=
  sequenceLoop es []

/-- The loop of `mergeEither` from `src/either.ts`: pushes `e.value` for every
`Right`, skips every `Left`. -/
def mergeLoop : List (Either L R) → List R → List R
  | [], rs => rs
  | .Right r :: rest, rs => mergeLoop rest (rs ++ [r])
  | .Left _ :: rest, rs => mergeLoop rest rs

/-- `mergeEither` from `src/either.ts`: collects all `Right` values; if none
were collected returns `Left(errorOnAllFailure)`, otherwise `Right` of
them. -/
def mergeEither (es : List (Either L R)) (errorOnAllFailure : L) :
    Either L (List R) :=
  let rs := mergeLoop es []
  if rs.length = 0 then .Left errorOnAllFailure else .Right rs

/-- `eitherFromTry` from `src/either.ts`.  The thunk `() => R` that may throw
is modelled by its outcome: `Except.ok r` when it returns `r`, `Except.error e`
when it throws `e`.  The catch branch ignores the caught error (`catch (_e)`)
and returns `Left(onCatch)`. -/
def eitherFromTry (f : Except ε R) (onCatch : L) : Either L R :=
  match f with
  | .ok r => .Right r
  | .error _ => .Left onCatch

/-- A JavaScript primitive value, enough to separate the nullish values
`null`/`undefined` from falsy-but-not-nullish values such as `0`, `""`,
`false` and `NaN`. -/
inductive JSVal : Type where
  | jsNull
  | jsUndefined
  | jsBool (b : Bool)
  | jsNumber (n : Int)
  | jsNaN
  | jsString (s : String)
deriving DecidableEq, Repr

/-- The strict-equality test `j === null || j === undefined` used by
`nullableToMaybe` and `nullableToEither`. -/
def JSVal.isNullish : JSVal → Bool
  | .jsNull => true
  | .jsUndefined => true
  | _ => false

/-- `nullableToMaybe` from `src/maybe.ts`:
`if (j === null || j === undefined) return Nothing(); return Just(j);`. -/
def nullableToMaybe (j : JSVal) : Maybe JSVal :=
  if j.isNullish then .Nothing else .Just j

/-- `nullableToEither` from `src/either.ts`:
`if (r === null || r === undefined) return Left(onNullable); return Right(r);`. -/
def nullableToEither (r : JSVal) (onNullable : L) : Either L JSVal :=
  if r.isNullish then .Left onNullable else .Right r

/-- Spec-side view of an `Either`: the `Right` value when there is one. -/
def rightValueOf : Either L R → Option R
  | .Right r => some r
  | .Left _ => none

/-- Spec-side view of a list of `Either`s: the `Right` values in original
order. -/
def rightValues (es : List (Either L R)) : List R :=
  es.filterMap rightValueOf

/-- Spec-side view of a list of `Either`s: the reason of the first `Left`, in
iteration order, when there is one. -/
def firstLeftReason : List (Either L R) → Option L
  | [] => none
  | .Left l :: _ => some l
  | .Right _ :: rest => firstLeftReason rest

theorem rightValues_cons_right (r : R) (es : List (Either L R)) :
    rightValues (.Right r :: es) = r :: rightValues es := by
  simp [rightValues, rightValueOf, List.filterMap_cons]

theorem rightValues_cons_left (l : L) (es : List (Either L R)) :
    rightValues (.Left l :: es) = rightValues es := by
  simp [rightValues, rightValueOf, List.filterMap_cons]

theorem sequenceLoop_eq (es : List (Either L R)) :
    ∀ rs, sequenceLoop es rs =
      match firstLeftReason es with
      | some l => .Left l
      | none => .Right (rs ++ rightValues es) := by
  induction es with
  | nil =>
    intro rs
    simp [sequenceLoop, firstLeftReason, rightValues]
  | cons e rest ih =>
    intro rs
    cases e with
    | Left l => simp [sequenceLoop, firstLeftReason]
    | Right r =>
      have h := ih (rs ++ [r])
      cases hfl : firstLeftReason rest with
      | some l =>
        rw [hfl] at h
        simpa [sequenceLoop, firstLeftReason, hfl] using h
      | none =>
        rw [hfl] at h
        simp only [sequenceLoop, firstLeftReason, hfl]
        rw [h, rightValues_cons_right]
        simp

theorem mergeLoop_eq (es : List (Either L R)) :
    ∀ rs, mergeLoop es rs = rs ++ rightValues es := by
  induction es with
  | nil =>
    intro rs
    simp [mergeLoop, rightValues]
  | cons e rest ih =>
    intro rs
    cases e with
    | Left l =>
      rw [mergeLoop, rightValues_cons_left]
      exact ih rs
    | Right r =>
      rw [mergeLoop, rightValues_cons_right, ih (rs ++ [r])]
      simp

theorem rights_eq (es : List (Either L R)) : rights es = rightValues es := by
  suffices h : ∀ acc : List R,
      es.foldl (fun acc e => e.fold (fun _ => acc) (fun r => acc ++ [r])) acc
        = acc ++ rightValues es by
    simpa [rights] using h []
  induction es with
  | nil =>
    intro acc
    simp [rightValues]
  | cons e rest ih =>
    intro acc
    cases e with
    | Left l =>
      rw [List.foldl_cons, rightValues_cons_left]
      simpa [Either.fold] using ih acc
    | Right r =>
      rw [List.foldl_cons, rightValues_cons_right]
      have := ih (acc ++ [r])
      simpa [Either.fold] using this

theorem firstLeftReason_eq_none_iff (es : List (Either L R)) :
    firstLeftReason es = none ↔ ∀ e ∈ es, e.isLeft = false := by
  induction es with
  | nil => simp [firstLeftReason]
  | cons e rest ih =>
    cases e with
    | Left l => simp [firstLeftReason, Either.isLeft]
    | Right r => simp [firstLeftReason, Either.isLeft, ih]

theorem rightValues_eq_nil_iff (es : List (Either L R)) :
    rightValues es = [] ↔ ∀ e ∈ es, e.isRight = false := by
  induction es with
  | nil => simp [rightValues]
  | cons e rest ih =>
    cases e with
    | Left l => simpa [rightValues_cons_left, Either.isRight] using ih
    | Right r => simp [rightValues_cons_right, Either.isRight]

theorem rightsOr_def (es : List (Either L R)) (d : L) :
    rightsOr es d =
      if (rights es).length = 0 then .Left d else .Right (rights es) := rfl

theorem mergeEither_def (es : List (Either L R)) (d : L) :
    mergeEither es d =
      if (mergeLoop es []).length = 0 then .Left d
      else .Right (mergeLoop es []) := rfl

/-- Claim C1: applying `map`, `bind`, `mapAsync`, or `bindAsync` to a `Nothing`
(`Maybe`) or a `Left` (`Either`) never invokes the supplied function (the heap
`s` is returned untouched for every instrumented callback) and yields the same
empty/failure branch unchanged; the async forms settle immediately to a
`resolved` promise of that branch, and `Maybe`'s `foldAsync` on `Nothing`
resolves to `onNothing` without invoking the function. -/
theorem shortCircuit_empty_branch (f1 : J → σ → T × σ)
    (f2 : J → σ → Maybe T × σ) (f3 : J → σ → Promise ε T × σ)
    (f4 : J → σ → Promise ε (Maybe T) × σ) (f5 : J → σ → Promise ε T × σ)
    (d : T) (g1 : R → σ → T × σ) (g2 : R → σ → Either L T × σ)
    (g3 : R → σ → Promise ε T × σ) (g4 : R → σ → Promise ε (Either L T) × σ)
    (l : L) (s : σ) :
    Maybe.mapE (.Nothing : Maybe J) f1 s = (.Nothing, s)
    ∧ Maybe.bindE (.Nothing : Maybe J) f2 s = (.Nothing, s)
    ∧ Maybe.mapAsyncE (.Nothing : Maybe J) f3 s = (.resolved .Nothing, s)
    ∧ Maybe.bindAsyncE (.Nothing : Maybe J) f4 s = (.resolved .Nothing, s)
    ∧ Maybe.foldAsyncE (.Nothing : Maybe J) d f5 s = (.resolved d, s)
    ∧ Either.mapE (.Left l : Either L R) g1 s = (.Left l, s)
    ∧ Either.bindE (.Left l : Either L R) g2 s = (.Left l, s)
    ∧ Either.mapAsyncE (.Left l : Either L R) g3 s = (.resolved (.Left l), s)
    ∧ Either.bindAsyncE (.Left l : Either L R) g4 s = (.resolved (.Left l), s) :=
  ⟨rfl, rfl, rfl, rfl, rfl, rfl, rfl, rfl, rfl⟩

/-- Claim C2: `sequenceEither` returns `Right` of all contained values in
original order when every element is `Right` (in particular `Right []` on the
empty list), and otherwise a `Left` carrying the reason of the first `Left`
element in iteration order, verbatim. -/
theorem sequenceEither_all_or_first_failure (es : List (Either L R)) (l : L) :
    ((∀ e ∈ es, e.isLeft = false) → sequenceEither es = .Right (rightValues es))
    ∧ sequenceEither ([] : List (Either L R)) = .Right []
    ∧ (firstLeftReason es = some l → sequenceEither es = .Left l)
    ∧ ((∀ e ∈ es, e.isLeft = false) ↔ firstLeftReason es = none) := by
  refine ⟨?_, rfl, ?_, (firstLeftReason_eq_none_iff es).symm⟩
  · intro h
    have hn : firstLeftReason es = none := (firstLeftReason_eq_none_iff es).mpr h
    have hs := sequenceLoop_eq es []
    rw [hn] at hs
    simpa [sequenceEither] using hs
  · intro h
    have hs := sequenceLoop_eq es []
    rw [h] at hs
    simpa [sequenceEither] using hs

/-- Witness for `sequenceEither_all_or_first_failure` at the spec's example
inputs: the first failure reason `e1` is returned, not the last and not a
merged one, and an all-`Right` list sequences to all its values. -/
theorem sequenceEither_all_or_first_failure_witness :
    sequenceEither
        [(Either.Right 1 : Either String Nat), Either.Left "e1",
          Either.Right 3, Either.Left "e2"]
      = Either.Left "e1"
    ∧ sequenceEither [(Either.Right 1 : Either String Nat), Either.Right 2]
      = Either.Right [1, 2] := by
  constructor
  · exact (sequenceEither_all_or_first_failure
      [(Either.Right 1 : Either String Nat), Either.Left "e1",
        Either.Right 3, Either.Left "e2"] "e1").2.2.1 rfl
  · have h := (sequenceEither_all_or_first_failure
      [(Either.Right 1 : Either String Nat), Either.Right 2] "x").1 (by decide)
    simpa [rightValues, rightValueOf] using h

/-- Claim C3: `rightsOr` and `mergeEither` return `Right` of all `Right`
values in original order whenever the list holds at least one `Right` (`Left`
elements are silently dropped), and `Left` of the caller-supplied default
exactly when the list holds zero `Right`s (the empty list included), never one
of the original `Left` reasons. -/
theorem rightsOr_mergeEither_at_least_one (es : List (Either L R)) (d : L) :
    (rightValues es ≠ [] →
      rightsOr es d = .Right (rightValues es)
      ∧ mergeEither es d = .Right (rightValues es))
    ∧ (rightValues es = [] →
      rightsOr es d = .Left d ∧ mergeEither es d = .Left d)
    ∧ (rightValues es = [] ↔ ∀ e ∈ es, e.isRight = false) := by
  have hr : rights es = rightValues es := rights_eq es
  have hm : mergeLoop es [] = rightValues es := by simpa using mergeLoop_eq es []
  refine ⟨?_, ?_, rightValues_eq_nil_iff es⟩
  · intro h
    rw [rightsOr_def, mergeEither_def, hr, hm]
    simp [List.length_eq_zero, h]
  · intro h
    rw [rightsOr_def, mergeEither_def, hr, hm, h]
    simp

/-- Witness for `rightsOr_mergeEither_at_least_one`: a mixed list keeps
exactly its `Right` values in order, and an all-`Left` list yields the
caller's default reason. -/
theorem rightsOr_mergeEither_at_least_one_witness :
    rightsOr [(Either.Left "NaN" : Either String Nat), Either.Right 2,
        Either.Right 3] "all empty"
      = Either.Right [2, 3]
    ∧ mergeEither [(Either.Left "NaN" : Either String Nat), Either.Left "NaN"]
        "all empty"
      = Either.Left "all empty" := by
  constructor
  · have h := (rightsOr_mergeEither_at_least_one
      [(Either.Left "NaN" : Either String Nat), Either.Right 2,
        Either.Right 3] "all empty").1 (by decide)
    simpa [rightValues, rightValueOf] using h.1
  · have h := (rightsOr_mergeEither_at_least_one
      [(Either.Left "NaN" : Either String Nat), Either.Left "NaN"]
        "all empty").2.1 (by decide)
    exact h.2

/-- Claim C4: `Maybe.fold` returns the bare folded value on both branches
(`f v` on `Just v`, the default on `Nothing`), and `Either`'s two-function
`fold` passes the failure reason to its first function (`f2 r` on `Right r`,
`g l` on `Left l`); the result type is the folded type, never the
container. -/
theorem fold_totality (v : J) (d : T) (f : J → T) (r : R) (l : L)
    (g : L → T) (f2 : R → T) :
    (Maybe.Just v).fold d f = f v
    ∧ (Maybe.Nothing : Maybe J).fold d f = d
    ∧ (Either.Right r : Either L R).fold g f2 = f2 r
    ∧ (Either.Left l : Either L R).fold g f2 = g l :=
  ⟨rfl, rfl, rfl, rfl⟩

/-- Claim C5: functor laws for `map`: mapping the identity over `Just v`
(resp. `Right r`) gives the same container back; mapping any function over
`Nothing` (resp. `Left l`) gives the same branch without invoking the
function (instrumented heap untouched); and mapping `f` then `g` equals
mapping their composition. -/
theorem map_functor_laws (v : J) (f : J → T) (g : T → U)
    (fE : J → σ → T × σ) (s : σ) (r : R) (l : L)
    (fr : R → T) (gr : T → U) (lE : R → σ → T × σ) :
    (Maybe.Just v).map (fun x => x) = Maybe.Just v
    ∧ Maybe.mapE (.Nothing : Maybe J) fE s = (.Nothing, s)
    ∧ ((Maybe.Just v).map f).map g = (Maybe.Just v).map (fun x => g (f x))
    ∧ (Either.Right r : Either L R).map (fun x => x) = .Right r
    ∧ Either.mapE (.Left l : Either L R) lE s = (.Left l, s)
    ∧ ((Either.Right r : Either L R).map fr).map gr
        = (Either.Right r : Either L R).map (fun x => gr (fr x)) :=
  ⟨rfl, rfl, rfl, rfl, rfl, rfl⟩

/-- Claim C6: round-trip through conversion: `Right x |> toMaybe |> otherwise d`
returns `x`, and `Left e |> toMaybe |> otherwise d` returns the bare default
`d` (the `Left` reason is discarded by `toMaybe`). -/
theorem toMaybe_otherwise_roundtrip (x : R) (e : L) (d : R) :
    ((Either.Right x : Either L R).toMaybe).otherwise d = x
    ∧ ((Either.Left e : Either L R).toMaybe).otherwise d = d :=
  ⟨rfl, rfl⟩

/-- Claim C7: the side-effect hooks `onJust`/`onNothing` (`Maybe`) and
`onRight`/`onLeft` (`Either`) return a container with the same tag and payload
as the input regardless of whether the callback fired, and the callback is
invoked exactly when the container is of the matching variant, receiving its
payload. -/
theorem effect_hooks_passthrough (m : Maybe J) (e : Either L R)
    (f : J → σ → σ) (g : σ → σ) (fr : R → σ → σ) (fl : L → σ → σ) (s : σ) :
    (m.onJust f s).1 = m
    ∧ (m.onNothing g s).1 = m
    ∧ (e.onRight fr s).1 = e
    ∧ (e.onLeft fl s).1 = e
    ∧ (∀ j, m = .Just j → (m.onJust f s).2 = f j s ∧ (m.onNothing g s).2 = s)
    ∧ (m = .Nothing → (m.onJust f s).2 = s ∧ (m.onNothing g s).2 = g s)
    ∧ (∀ r, e = .Right r → (e.onRight fr s).2 = fr r s ∧ (e.onLeft fl s).2 = s)
    ∧ (∀ l, e = .Left l → (e.onRight fr s).2 = s ∧ (e.onLeft fl s).2 = fl l s) := by
  cases m <;> cases e <;>
    simp [Maybe.onJust, Maybe.onNothing, Either.onRight, Either.onLeft]

/-- Witness for `effect_hooks_passthrough`: on matching variants the callbacks
fire on the payload (heap `10` becomes `11` and `15`), and the returned
containers are unchanged. -/
theorem effect_hooks_passthrough_witness :
    (Maybe.onJust (Maybe.Just 1) (fun j s => s + j) 10).2 = 11
    ∧ (Either.onLeft (Either.Left 5 : Either Nat Nat)
        (fun l s => s + l) 10).2 = 15
    ∧ (Maybe.onJust (Maybe.Just 1) (fun j s => s + j) 10).1 = Maybe.Just 1 := by
  have h := effect_hooks_passthrough (Maybe.Just 1)
    (Either.Left 5 : Either Nat Nat) (fun j s => s + j) (fun s => s)
    (fun r s => s + r) (fun l s => s + l) 10
  refine ⟨?_, ?_, h.1⟩
  · rw [(h.2.2.2.2.1 1 rfl).1]
  · rw [(h.2.2.2.2.2.2.2 5 rfl).2]

/-- Claim C8: for `Just v` (resp. `Right r`), if the caller-supplied async
function rejects on the payload, then `mapAsync` and `bindAsync` reject with
that same reason: the combinator neither catches the rejection nor converts it
into `Nothing`/`Left`. -/
theorem async_rejection_propagates (v : J) (r : R) (err : ε)
    (f : J → Promise ε T) (g : J → Promise ε (Maybe T))
    (fr : R → Promise ε T) (gr : R → Promise ε (Either L T)) :
    (f v = .rejected err → (Maybe.Just v).mapAsync f = .rejected err)
    ∧ (g v = .rejected err → (Maybe.Just v).bindAsync g = .rejected err)
    ∧ (fr r = .rejected err →
        (Either.Right r : Either L R).mapAsync fr = .rejected err)
    ∧ (gr r = .rejected err →
        (Either.Right r : Either L R).bindAsync gr = .rejected err) := by
  refine ⟨?_, ?_, ?_, ?_⟩ <;> intro h <;>
    simp [Maybe.mapAsync, Maybe.bindAsync, Either.mapAsync, Either.bindAsync, h]

/-- Witness for `async_rejection_propagates`: a function rejecting with `7`
makes the combinators reject with `7`. -/
theorem async_rejection_propagates_witness :
    Maybe.mapAsync (Maybe.Just 1)
        (fun _ => (Promise.rejected 7 : Promise Nat Nat)) = .rejected 7
    ∧ Either.bindAsync (Either.Right 1 : Either Nat Nat)
        (fun _ => (Promise.rejected 7 : Promise Nat (Either Nat Nat)))
      = .rejected 7 := by
  have h := async_rejection_propagates 1 (1 : Nat) (7 : Nat)
    (fun _ => (Promise.rejected 7 : Promise Nat Nat))
    (fun _ => (Promise.rejected 7 : Promise Nat (Maybe Nat)))
    (fun _ => (Promise.rejected 7 : Promise Nat Nat))
    (fun _ => (Promise.rejected 7 : Promise Nat (Either Nat Nat)))
  exact ⟨h.1 rfl, h.2.2.2 rfl⟩

/-- Claim C9: `eitherFromTry` returns `Right` of the result when the thunk
returns without raising, and `Left` of the caller-supplied default when it
raises; the caught error value is discarded and never used as the reason. -/
theorem eitherFromTry_default_reason (r : R) (err : ε) (d : L) :
    eitherFromTry (Except.ok r : Except ε R) d = (.Right r : Either L R)
    ∧ eitherFromTry (Except.error err : Except ε R) d = (.Left d : Either L R) :=
  ⟨rfl, rfl⟩

/-- Claim C10: `nullableToMaybe` returns `Nothing` exactly when the input is
`null` or `undefined` under strict equality, and `Just` of the input for every
other value, including the falsy values `0`, `""`, `false` and `NaN`;
`nullableToEither` likewise returns `Left` of the default exactly for
`null`/`undefined` and `Right` of the input otherwise. -/
theorem nullable_strict_boundary (x : JSVal) (d : L) :
    (nullableToMaybe x = .Nothing ↔ (x = .jsNull ∨ x = .jsUndefined))
    ∧ (x ≠ .jsNull → x ≠ .jsUndefined → nullableToMaybe x = .Just x)
    ∧ (nullableToEither x d = .Left d ↔ (x = .jsNull ∨ x = .jsUndefined))
    ∧ (x ≠ .jsNull → x ≠ .jsUndefined → nullableToEither x d = .Right x)
    ∧ nullableToMaybe (.jsNumber 0) = .Just (.jsNumber 0)
    ∧ nullableToMaybe (.jsString "") = .Just (.jsString "")
    ∧ nullableToMaybe (.jsBool false) = .Just (.jsBool false)
    ∧ nullableToMaybe .jsNaN = .Just .jsNaN := by
  refine ⟨?_, ?_, ?_, ?_, rfl, rfl, rfl, rfl⟩ <;>
    cases x <;>
      simp [nullableToMaybe, nullableToEither, JSVal.isNullish]

/-- Witness for `nullable_strict_boundary`: the falsy values `0` and `false`
are not nullish, while `null` maps to the failure branch. -/
theorem nullable_strict_boundary_witness :
    nullableToMaybe (JSVal.jsNumber 0) = Maybe.Just (JSVal.jsNumber 0)
    ∧ nullableToEither (JSVal.jsBool false) "absent"
      = Either.Right (JSVal.jsBool false)
    ∧ nullableToEither JSVal.jsNull "absent" = Either.Left "absent" := by
  have h := nullable_strict_boundary (JSVal.jsNumber 0) "absent"
  have h2 := nullable_strict_boundary (JSVal.jsBool false) "absent"
  have h3 := nullable_strict_boundary JSVal.jsNull "absent"
  exact ⟨h.2.1 (by decide) (by decide), h2.2.2.2.1 (by decide) (by decide),
    h3.2.2.1.mpr (Or.inl rfl)⟩

end Lich
